import Mathlib

/-!
Verification of the Adaptive Tool Orchestration Core of SalesBoost.

Shallow embedding of the Python sources shipped in the repository:
* `app/mcp/cache_manager.py` (`MCPCacheManager`, docs/MCP_OPTIMIZATION_RECOMMENDATIONS.md §3),
* `app/mcp/retry_policy.py` (`RetryPolicy`, §4),
* `app/mcp/learning_engine.py` (`_batch_processor`, §2),
* `app/mcp/service_mesh.py` (`MCPMesh._check_all_nodes`, §8),
* the MoE gating network (`GatingNetwork.forward`),
* the MoE top-K router (modelled from the spec, see `topKIndices`).

Machine reals (Python floats) are modelled as rationals; wall-clock time as
natural-number timestamps; `random.random()` draws as explicit rational
arguments in `[0, 1)`; `asyncio` queues/loops as explicit event sequences.
-/

/-! ### JSON values and `json.dumps(..., sort_keys=True)`

`MCPCacheManager._generate_cache_key` serialises `{"tool": .., "params": ..,
"context": ..}` with `json.dumps(cache_data, sort_keys=True)`.  `JVal` models
Python values that can appear in `parameters` / `context` dictionaries; the
string escape covers quotes and backslashes (the model is restricted to
strings without control characters, which `json.dumps` would also escape). -/

inductive JVal where
  | jnull : JVal
  | jbool : Bool → JVal
  | jnum : Int → JVal
  | jstr : String → JVal
  | jarr : List JVal → JVal
  | jobj : List (String × JVal) → JVal

def escapeChars : List Char → String
  | [] => ""
  | c :: cs =>
      (if c = '"' then "\\\"" else if c = '\\' then "\\\\" else String.singleton c) ++
        escapeChars cs

def jsonEscape (s : String) : String :=
  escapeChars s.data

/-- Python `sorted` on the rendered fields, keyed by the (code-point
lexicographic) order of the field name, as `json.dumps(..., sort_keys=True)`
sorts each object's keys. -/
def sortFields (l : List (String × String)) : List (String × String) :=
  List.insertionSort (fun a b => a.1.data ≤ b.1.data) l

mutual

/-- `json.dumps(v, sort_keys=True)` with the default separators `", "` and
`": "` used by the source. -/
def dumps : JVal → String
  | .jnull => "null"
  | .jbool b => if b then "true" else "false"
  | .jnum n => toString n
  | .jstr s => "\"" ++ jsonEscape s ++ "\""
  | .jarr xs => "[" ++ String.intercalate ", " (dumpsList xs) ++ "]"
  | .jobj fs =>
      "\x7b" ++ String.intercalate ", "
        ((sortFields (dumpsFields fs)).map
          (fun kv => "\"" ++ jsonEscape kv.1 ++ "\": " ++ kv.2)) ++ "\x7d"

def dumpsList : List JVal → List String
  | [] => []
  | x :: xs => dumps x :: dumpsList xs

def dumpsFields : List (String × JVal) → List (String × String)
  | [] => []
  | (k, v) :: fs => (k, dumps v) :: dumpsFields fs

end

/-! ### `MCPCacheManager` (app/mcp/cache_manager.py)

The Redis backing store is modelled as an association list from key to
(serialised value, absolute expiry timestamp); `setex` prepends a binding
(later bindings shadow earlier ones, as a key overwrite does) and `get`
returns the value only strictly before its expiry (Redis treats a key as
gone from its expiry time on; lazy expiry).  SHA-256 is an external
primitive, modelled as an explicit `hash` argument applied to the exact
string the source hashes. -/

/-- The string `json.dumps(cache_data, sort_keys=True)` built by
`MCPCacheManager._generate_cache_key`; `cache_data` is the dict
`\x7b"tool": tool_name, "params": parameters, "context": context\x7d`. -/
def cacheStr (tool_name : String) (parameters context : List (String × JVal)) : String :=
  dumps (.jobj [("tool", .jstr tool_name), ("params", .jobj parameters),
    ("context", .jobj context)])

/-- `_generate_cache_key`: `f"mcp:cache:{sha256(cache_str).hexdigest()}"`,
with SHA-256 abstracted as `hash`. -/
def genCacheKey (hash : String → String) (tool_name : String)
    (parameters context : List (String × JVal)) : String :=
  "mcp:cache:" ++ hash (cacheStr tool_name parameters context)

structure MCPCacheManager where
  store : List (String × String × Nat)
  default_ttl : Nat
  hit_count : Nat
  miss_count : Nat

/-- `redis.get` at time `now`: a key is visible strictly before its expiry. -/
def redisGet (store : List (String × String × Nat)) (now : Nat) (key : String) :
    Option String :=
  match store.lookup key with
  | some (v, expiry) => if now < expiry then some v else none
  | none => none

/-- Python `ttl or self.default_ttl`: both `None` and `0` are falsy, so both
fall back to the default TTL. -/
def ttlOrDefault (default_ttl : Nat) : Option Nat → Nat
  | none => default_ttl
  | some t => if t = 0 then default_ttl else t

/-- `MCPCacheManager.set`: `redis.setex(key, ttl or default_ttl, json.dumps(result))`. -/
def MCPCacheManager.set (m : MCPCacheManager) (hash : String → String) (now : Nat)
    (tool_name : String) (parameters context : List (String × JVal)) (result : JVal)
    (ttl : Option Nat) : MCPCacheManager :=
  { m with store := (genCacheKey hash tool_name parameters context, dumps result,
      now + ttlOrDefault m.default_ttl ttl) :: m.store }

/-- `MCPCacheManager.get`: returns the cached serialised payload and the
manager with `hit_count` / `miss_count` updated exactly as the source does. -/
def MCPCacheManager.get (m : MCPCacheManager) (hash : String → String) (now : Nat)
    (tool_name : String) (parameters context : List (String × JVal)) :
    Option String × MCPCacheManager :=
  match redisGet m.store now (genCacheKey hash tool_name parameters context) with
  | some v => (some v, { m with hit_count := m.hit_count + 1 })
  | none => (none, { m with miss_count := m.miss_count + 1 })

/-! ### `RetryPolicy` (app/mcp/retry_policy.py) -/

structure RetryPolicy where
  max_retries : Nat
  base_delay : ℚ
  max_delay : ℚ
  exponential_base : ℚ
  jitter : Bool

/-- The constructor defaults `RetryPolicy(max_retries=3, base_delay=1.0,
max_delay=60.0, exponential_base=2.0, jitter=True)`. -/
def defaultRetryPolicy : RetryPolicy :=
  { max_retries := 3, base_delay := 1, max_delay := 60, exponential_base := 2,
    jitter := true }

/-- `RetryPolicy.get_delay`: `min(base_delay * exponential_base ** attempt,
max_delay)`, then `delay * (0.5 + random.random())` when jitter is on.
`rand` is the value drawn by `random.random()`, a rational in `[0, 1)`. -/
def RetryPolicy.get_delay (p : RetryPolicy) (attempt : Nat) (rand : ℚ) : ℚ :=
  let delay := min (p.base_delay * p.exponential_base ^ attempt) p.max_delay
  if p.jitter then delay * (1/2 + rand) else delay

/-- The `for attempt in range(max_retries + 1)` loop of `execute_with_retry`.
`fn n` is the outcome of the `n`-th invocation of `func` (invocations may
differ, `func` being effectful); `left` is the number of loop iterations
still to come after the current one, i.e. `max_retries - attempt`, so
`left = 0` exactly when `attempt >= max_retries` (the source's last-attempt
re-raise test).  On that final iteration every path of the loop body returns
the invocation's outcome after exactly one call — a success is returned, a
non-retryable error is re-raised, and otherwise the exhausted error is
re-raised — so the final iteration is the single equation `(fn attempt, 1)`.
Returns the loop's result together with the number of times `func` was
invoked. -/
def retryGo {E A : Type} (fn : Nat → Except E A) (should_retry : Option (E → Bool)) :
    Nat → Nat → Except E A × Nat
  | attempt, 0 => (fn attempt, 1)
  | attempt, left + 1 =>
    match fn attempt with
    | .ok a => (.ok a, 1)
    | .error e =>
      if (should_retry.map (fun p => p e)).getD true = false then
        (.error e, 1)
      else
        let r := retryGo fn should_retry (attempt + 1) left
        (r.1, r.2 + 1)

/-- `RetryPolicy.execute_with_retry(func, should_retry=...)`: result paired
with the total number of invocations of `func`. -/
def RetryPolicy.execute_with_retry {E A : Type} (p : RetryPolicy)
    (fn : Nat → Except E A) (should_retry : Option (E → Bool)) : Except E A × Nat :=
  retryGo fn should_retry 0 p.max_retries

/-! ### `MCPMesh` health checks (app/mcp/service_mesh.py)

`_check_all_nodes` handles one node per probe: a healthy ping updates the
rolling latency average and promotes `DEGRADED` back to `ONLINE`; an
unhealthy ping demotes `ONLINE` to `DEGRADED`; a ping that raises an
exception marks the node `OFFLINE`. -/

inductive NodeStatus where
  | online
  | degraded
  | offline
deriving DecidableEq

inductive ProbeOutcome where
  /-- `_ping_node` returned `True`; `latency` is the measured round trip. -/
  | healthy (latency : ℚ)
  /-- `_ping_node` returned `False`. -/
  | unhealthy
  /-- `_ping_node` raised an exception. -/
  | exn

/-- One iteration of the per-node body of `MCPMesh._check_all_nodes`,
returning the new status and rolling average latency. -/
def checkNode (status : NodeStatus) (avg_latency : ℚ) :
    ProbeOutcome → NodeStatus × ℚ
  | .healthy latency =>
      (if status = .degraded then .online else status,
       (9/10) * avg_latency + (1/10) * latency)
  | .unhealthy =>
      (if status = .online then .degraded else status, avg_latency)
  | .exn => (.offline, avg_latency)

/-! ### `MCPLearningEngine._batch_processor` (app/mcp/learning_engine.py)

The processor loops on `asyncio.wait_for(queue.get(), timeout=flush_interval)`:
the timeout restarts at every `get`.  `bpRun bs T arrivals g batch` runs the
loop over a finite ascending list of record arrival times, where `g` is the
time the pending `get` was issued (the previous arrival or flush) and `batch`
the records accumulated so far; it returns the list of flushes as
(flush time, flushed batch) pairs.  A timeout with an empty batch flushes
nothing, so the next record is simply received at its arrival time. -/

def bpRun (bs T : Nat) : List Nat → Nat → List Nat → List (Nat × List Nat)
  | [], g, batch => if batch.isEmpty then [] else [(g + T, batch)]
  | a :: rest, g, batch =>
    if batch.isEmpty = false ∧ g + T < a then
      (g + T, batch) ::
        (if bs ≤ 1 then (a, [a]) :: bpRun bs T rest a []
         else bpRun bs T rest a [a])
    else
      if bs ≤ (batch ++ [a]).length then (a, batch ++ [a]) :: bpRun bs T rest a []
      else bpRun bs T rest a (batch ++ [a])

/-! ### MoE top-K routing -/

/-- Modelled from the spec: the `MixtureOfExpertsRouter` top-K selection lives
in `app/infra/llm/moe/moe_router.py`, which the repository's docs reference
but do not contain (only the `GatingNetwork.forward` scoring step is given in
the source).  Following §4.2 of the spec: the top-K experts by gating score
are kept and the rest receive zero weight.  `scores` is the gating network's
per-expert score list (softmax outputs, hence strictly positive); ties keep
the earlier candidate, modelling the spec's deterministic tie-break. -/
def topKIndices (scores : List ℚ) (k : Nat) : List Nat :=
  (List.insertionSort (fun i j => scores.getD j 0 ≤ scores.getD i 0)
    (List.range scores.length)).take k

/-- Modelled from the spec: the weight of expert `i` after top-K selection —
the selected scores renormalized to sum to 1, zero for unselected experts. -/
def expertWeight (scores : List ℚ) (k : Nat) (i : Nat) : ℚ :=
  if i ∈ topKIndices scores k then
    scores.getD i 0 / ((topKIndices scores k).map (fun j => scores.getD j 0)).sum
  else 0

/-- Modelled from the spec: the full weight vector `Route` returns, indexed
like the candidate list. -/
def routeWeights (scores : List ℚ) (k : Nat) : List ℚ :=
  (List.range scores.length).map (expertWeight scores k)

/-! ### `GatingNetwork.forward` (MoE gating network)

The PyTorch module is embedded with its learned layers (`fc1`, `bn1`, …) as
abstract functions on rational vectors; batch normalisation is taken in its
evaluation form (a fixed affine map from the running statistics).  The
stochastic inputs are explicit: `mask1`/`mask2` are the dropout keep-masks
and `noise` the `torch.randn_like` draw, so determinism questions become
questions about which arguments the result depends on.  `softmax` is
parametrised by the exponential map `expQ` (a transcendental function,
external to the rational model). -/

def reluV (v : List ℚ) : List ℚ := v.map (fun x => max x 0)

/-- `nn.Dropout(p)`: in training mode a kept coordinate is scaled by
`1/(1-p)` and a dropped one zeroed; in evaluation mode the identity. -/
def dropoutV (training : Bool) (p : ℚ) (mask : List Bool) (v : List ℚ) : List ℚ :=
  if training then
    (v.zip mask).map (fun xm => if xm.2 then xm.1 / (1 - p) else 0)
  else v

/-- `logits += torch.randn_like(logits) * 0.1`. -/
def addNoise (noise logits : List ℚ) : List ℚ :=
  (logits.zip noise).map (fun xn => xn.1 + xn.2 * (1/10))

def softmaxWith (expQ : ℚ → ℚ) (l : List ℚ) : List ℚ :=
  (l.map expQ).map (fun e => e / (l.map expQ).sum)

structure GatingNetwork where
  fc1 : List ℚ → List ℚ
  bn1 : List ℚ → List ℚ
  fc2 : List ℚ → List ℚ
  bn2 : List ℚ → List ℚ
  fc3 : List ℚ → List ℚ
  dropout_p : ℚ
  training : Bool

/-- `GatingNetwork.forward`: two `relu(bn(fc(x)))` blocks each followed by
dropout, then `fc3`, exploration noise added to the logits only under
`self.training`, and a final softmax. -/
def GatingNetwork.forward (net : GatingNetwork) (expQ : ℚ → ℚ) (context_embedding : List ℚ)
    (mask1 mask2 : List Bool) (noise : List ℚ) : List ℚ :=
  let x1 := dropoutV net.training net.dropout_p mask1 (reluV (net.bn1 (net.fc1 context_embedding)))
  let x2 := dropoutV net.training net.dropout_p mask2 (reluV (net.bn2 (net.fc2 x1)))
  let logits := net.fc3 x2
  let logits := if net.training then addNoise noise logits else logits
  softmaxWith expQ logits

/-! ### Helper lemmas: retry loop -/

theorem retryGo_count_pos {E A : Type} (fn : Nat → Except E A)
    (should_retry : Option (E → Bool)) (attempt left : Nat) :
    1 ≤ (retryGo fn should_retry attempt left).2 := by
  cases left with
  | zero => simp [retryGo]
  | succ left' =>
    rw [retryGo]
    cases h : fn attempt with
    | ok a => simp
    | error e =>
      by_cases hsr : (should_retry.map (fun p => p e)).getD true = false <;>
        simp [hsr]

theorem retryGo_count_le {E A : Type} (fn : Nat → Except E A)
    (should_retry : Option (E → Bool)) :
    ∀ left attempt, (retryGo fn should_retry attempt left).2 ≤ left + 1 := by
  intro left
  induction left with
  | zero =>
    intro attempt
    simp [retryGo]
  | succ left' ih =>
    intro attempt
    rw [retryGo]
    cases h : fn attempt with
    | ok a => simp
    | error e =>
      have hih := ih (attempt + 1)
      by_cases hsr : (should_retry.map (fun p => p e)).getD true = false <;>
        simp [hsr] <;> omega

theorem retryGo_result_last {E A : Type} (fn : Nat → Except E A)
    (should_retry : Option (E → Bool)) :
    ∀ left attempt,
      fn (attempt + (retryGo fn should_retry attempt left).2 - 1) =
        (retryGo fn should_retry attempt left).1 := by
  intro left
  induction left with
  | zero =>
    intro attempt
    simp [retryGo]
  | succ left' ih =>
    intro attempt
    rw [retryGo]
    cases h : fn attempt with
    | ok a => simpa using h
    | error e =>
      by_cases hsr : (should_retry.map (fun p => p e)).getD true = false
      · simpa [hsr] using h
      · have hpos := retryGo_count_pos fn should_retry (attempt + 1) left'
        have harg : attempt + 1 + (retryGo fn should_retry (attempt + 1) left').2 - 1 =
            attempt + (retryGo fn should_retry (attempt + 1) left').2 := by omega
        have hih := ih (attempt + 1)
        rw [harg] at hih
        simpa [hsr] using hih

theorem retryGo_no_retry {E A : Type} (fn : Nat → Except E A) (e : E) (pr : E → Bool)
    (attempt left : Nat) (hf : fn attempt = Except.error e) (hp : pr e = false) :
    retryGo fn (some pr) attempt left = (Except.error e, 1) := by
  cases left with
  | zero => simp [retryGo, hf]
  | succ left' =>
    rw [retryGo, hf]
    simp [hp]

/-! ### Claim theorems: retry policy -/

/-- Claim C1: for every function `fn`, every `maxRetries ≥ 0` and every
`shouldRetry` predicate, one run of `RetryPolicy.execute_with_retry` invokes
`fn` at most `maxRetries + 1` times in total (initial attempt plus retries). -/
theorem retry_attempt_bound {E A : Type} (p : RetryPolicy) (fn : Nat → Except E A)
    (should_retry : Option (E → Bool)) :
    (p.execute_with_retry fn should_retry).2 ≤ p.max_retries + 1 :=
  retryGo_count_le fn should_retry p.max_retries 0

/-- Claim C3 (counterexample): with the default policy (jitter on,
`base_delay = 1`, `exponential_base = 2`, `max_delay = 60`) and the valid
`random.random()` draw `0.9`, the delay for attempt 0 is `1.4`, which is
strictly above the claimed upper bound `1.0 × min(baseDelay·base^0, maxDelay)`:
the code multiplies by `0.5 + random.random() ∈ [0.5, 1.5)`, not by a factor
in `[0.5, 1.0]`. -/
theorem get_delay_jitter_above_claimed_range :
    defaultRetryPolicy.get_delay 0 (9/10) = 7/5 ∧
    ¬ defaultRetryPolicy.get_delay 0 (9/10) ≤
        1 * min (defaultRetryPolicy.base_delay * defaultRetryPolicy.exponential_base ^ 0)
          defaultRetryPolicy.max_delay := by
  constructor <;> norm_num [RetryPolicy.get_delay, defaultRetryPolicy, min_def]

/-- Claim C3 (amended): for every zero-indexed attempt `n` and every value of
the random draw in `[0, 1)`, the delay computed by `RetryPolicy.get_delay`
with jitter enabled equals `min(baseDelay·base^n, maxDelay) · (0.5 + rand)`
and hence lies within `[0.5, 1.5) × min(baseDelay·base^n, maxDelay)` (the
upper end stated with `≤ 1.5·min(...)`, which is attained only when the
capped delay is zero). -/
theorem get_delay_jitter_range (p : RetryPolicy) (attempt : Nat) (rand : ℚ)
    (hj : p.jitter = true) (h0 : 0 ≤ rand) (h1 : rand < 1)
    (hb : 0 ≤ p.base_delay) (hm : 0 ≤ p.max_delay) (he : 0 ≤ p.exponential_base) :
    p.get_delay attempt rand =
      min (p.base_delay * p.exponential_base ^ attempt) p.max_delay * (1/2 + rand) ∧
    (1/2) * min (p.base_delay * p.exponential_base ^ attempt) p.max_delay ≤
      p.get_delay attempt rand ∧
    p.get_delay attempt rand ≤
      (3/2) * min (p.base_delay * p.exponential_base ^ attempt) p.max_delay := by
  have hm0 : 0 ≤ min (p.base_delay * p.exponential_base ^ attempt) p.max_delay :=
    le_min (mul_nonneg hb (pow_nonneg he attempt)) hm
  have heq : p.get_delay attempt rand =
      min (p.base_delay * p.exponential_base ^ attempt) p.max_delay * (1/2 + rand) := by
    simp [RetryPolicy.get_delay, hj]
  refine ⟨heq, ?_, ?_⟩ <;> rw [heq] <;> nlinarith

/-- Witness for the amended C3 at the default policy, attempt 5, draw 0. -/
theorem get_delay_jitter_range_witness :
    defaultRetryPolicy.get_delay 5 0 =
      min (defaultRetryPolicy.base_delay * defaultRetryPolicy.exponential_base ^ 5)
        defaultRetryPolicy.max_delay * (1/2 + 0) ∧
    (1/2) * min (defaultRetryPolicy.base_delay * defaultRetryPolicy.exponential_base ^ 5)
        defaultRetryPolicy.max_delay ≤ defaultRetryPolicy.get_delay 5 0 ∧
    defaultRetryPolicy.get_delay 5 0 ≤
      (3/2) * min (defaultRetryPolicy.base_delay * defaultRetryPolicy.exponential_base ^ 5)
        defaultRetryPolicy.max_delay :=
  get_delay_jitter_range defaultRetryPolicy 5 0 rfl (by norm_num) (by norm_num)
    (by norm_num [defaultRetryPolicy]) (by norm_num [defaultRetryPolicy])
    (by norm_num [defaultRetryPolicy])

/-- Claim C7: whenever `execute_with_retry` does not return a result of `fn`,
the error it raises is the error `fn` raised on the final invocation,
unchanged; an error for which `should_retry` returns false is re-raised
immediately with no further attempt; and a run is never reported successful
unless some invocation of `fn` succeeded (the result, ok or error, is always
exactly the outcome of the last invocation). -/
theorem retry_error_propagation {E A : Type} (p : RetryPolicy) (fn : Nat → Except E A)
    (should_retry : Option (E → Bool)) :
    (∀ e : E, (p.execute_with_retry fn should_retry).1 = Except.error e →
      fn ((p.execute_with_retry fn should_retry).2 - 1) = Except.error e) ∧
    (∀ a : A, (p.execute_with_retry fn should_retry).1 = Except.ok a →
      fn ((p.execute_with_retry fn should_retry).2 - 1) = Except.ok a) ∧
    (∀ (e : E) (pr : E → Bool), fn 0 = Except.error e → should_retry = some pr →
      pr e = false → p.execute_with_retry fn should_retry = (Except.error e, 1)) := by
  have hlast := retryGo_result_last fn should_retry p.max_retries 0
  simp only [Nat.zero_add] at hlast
  refine ⟨fun e he => ?_, fun a ha => ?_, fun e pr hf hs hp => ?_⟩
  · rw [RetryPolicy.execute_with_retry] at he ⊢
    rw [hlast, he]
  · rw [RetryPolicy.execute_with_retry] at ha ⊢
    rw [hlast, ha]
  · rw [RetryPolicy.execute_with_retry, hs]
    exact retryGo_no_retry fn e pr 0 p.max_retries hf hp

/-- Witness for C7: with `fn` failing as `error n` on invocation `n` and no
`should_retry`, the default policy returns the error of the last (4th)
invocation; with a non-retryable error the first error is re-raised after a
single attempt. -/
theorem retry_error_propagation_witness :
    (fun i => (Except.error i : Except Nat Nat))
        ((defaultRetryPolicy.execute_with_retry (fun i => (Except.error i : Except Nat Nat))
          none).2 - 1) = Except.error 3 ∧
    defaultRetryPolicy.execute_with_retry (fun _ => (Except.error 7 : Except Nat Nat))
        (some (fun _ => false)) = (Except.error 7, 1) :=
  ⟨(retry_error_propagation defaultRetryPolicy (fun i => Except.error i) none).1 3 rfl,
   (retry_error_propagation defaultRetryPolicy (fun _ => Except.error 7)
      (some (fun _ => false))).2.2 7 (fun _ => false) rfl rfl rfl⟩

/-! ### Claim theorems: health monitor -/

/-- Claim C5 (counterexample): in `MCPMesh._check_all_nodes`, a probe whose
`_ping_node` call raises an exception moves an `online` node directly to
`offline` in a single failed probe, contradicting the claim that a single
failed probe never moves `online` directly to `offline`; there is no
`offlineThreshold` or consecutive-failure counter in the code at all. -/
theorem probe_exception_online_to_offline :
    (checkNode NodeStatus.online 0 ProbeOutcome.exn).1 = NodeStatus.offline := rfl

/-- Claim C5 (amended): a probe that merely reports unhealthy
(`_ping_node` returns `False`) moves `online` to `degraded` and never moves
any node to `offline`; but a probe that raises an exception sets the node
`offline` immediately, from any status, and no consecutive-failure threshold
exists. -/
theorem health_probe_transitions (status : NodeStatus) (avg_latency : ℚ) :
    ((checkNode status avg_latency ProbeOutcome.unhealthy).1 = NodeStatus.offline ↔
      status = NodeStatus.offline) ∧
    (status = NodeStatus.online →
      (checkNode status avg_latency ProbeOutcome.unhealthy).1 = NodeStatus.degraded) ∧
    (checkNode status avg_latency ProbeOutcome.exn).1 = NodeStatus.offline := by
  cases status <;> simp [checkNode]

/-- Witness for the amended C5 at a concrete `online` node. -/
theorem health_probe_transitions_witness :
    (checkNode NodeStatus.online 0 ProbeOutcome.unhealthy).1 = NodeStatus.degraded :=
  (health_probe_transitions NodeStatus.online 0).2.1 rfl

/-! ### Helper lemma: batch processor flush shapes -/

theorem bpRun_flushes (bs T : Nat) :
    ∀ (arrivals : List Nat) (g : Nat) (batch : List Nat),
      (batch = [] ∨ batch.getLast? = some g) →
      ∀ f ∈ bpRun bs T arrivals g batch,
        f.2 ≠ [] ∧ ∃ l, f.2.getLast? = some l ∧
          (f.1 = l + T ∨ (f.1 = l ∧ bs ≤ f.2.length)) := by
  intro arrivals
  induction arrivals with
  | nil =>
    intro g batch hinv f hf
    rw [bpRun] at hf
    by_cases hb : batch.isEmpty
    · simp [hb] at hf
    · rw [if_neg hb] at hf
      have hbe : batch ≠ [] := by simpa [List.isEmpty_iff] using hb
      have hg : batch.getLast? = some g := by
        rcases hinv with h | h
        · exact absurd h hbe
        · exact h
      rcases List.mem_singleton.mp hf with rfl
      exact ⟨hbe, g, hg, Or.inl rfl⟩
  | cons a rest ih =>
    intro g batch hinv f hf
    rw [bpRun] at hf
    by_cases hc : batch.isEmpty = false ∧ g + T < a
    · rw [if_pos hc] at hf
      have hbe : batch ≠ [] := List.isEmpty_eq_false.mp hc.1
      have hg : batch.getLast? = some g := by
        rcases hinv with h | h
        · exact absurd h hbe
        · exact h
      rcases List.mem_cons.mp hf with rfl | hf
      · exact ⟨hbe, g, hg, Or.inl rfl⟩
      · by_cases hbs : bs ≤ 1
        · rw [if_pos hbs] at hf
          rcases List.mem_cons.mp hf with rfl | hf
          · exact ⟨by simp, a, by simp, Or.inr ⟨rfl, by simpa using hbs⟩⟩
          · exact ih a [] (Or.inl rfl) f hf
        · rw [if_neg hbs] at hf
          exact ih a [a] (Or.inr rfl) f hf
    · rw [if_neg hc] at hf
      by_cases hsz : bs ≤ (batch ++ [a]).length
      · rw [if_pos hsz] at hf
        rcases List.mem_cons.mp hf with rfl | hf
        · exact ⟨by simp, a, by simp, Or.inr ⟨rfl, hsz⟩⟩
        · exact ih a [] (Or.inl rfl) f hf
      · rw [if_neg hsz] at hf
        exact ih a (batch ++ [a]) (Or.inr (by simp)) f hf

/-! ### Claim theorems: learning-queue batch processor -/

/-- Claim C6 (counterexample): with batch size 3 and flush interval 5, records
arriving at times 0, 4 and 8 (each gap shorter than the interval) are flushed
as one batch at time 8 and not before.  The record pending since time 0 was
neither flushed when the interval elapsed at time 5 (the claimed
"whichever comes first" bound) nor within the interval at all: the
`asyncio.wait_for(queue.get(), timeout=flush_interval)` timeout restarts at
every received record, so a slow trickle defers the flush indefinitely. -/
theorem batch_flush_exceeds_interval :
    bpRun 3 5 [0, 4, 8] 0 [] = [(8, [0, 4, 8])] ∧ ¬ (8 ≤ 0 + 5) := by decide

/-- Claim C6 (amended): the background batch processor processes each pending
non-empty batch either as soon as it reaches the fixed batch size (at the
arrival of the batch's last record) or one flush interval after the batch's
most recent record arrived — an idle timeout from the last received record,
not a bound from when the batch started. -/
theorem batch_flush_size_or_idle_timeout (bs T : Nat) (arrivals : List Nat) (g : Nat) :
    ∀ f ∈ bpRun bs T arrivals g [],
      f.2 ≠ [] ∧ ∃ l, f.2.getLast? = some l ∧
        (f.1 = l + T ∨ (f.1 = l ∧ bs ≤ f.2.length)) :=
  bpRun_flushes bs T arrivals g [] (Or.inl rfl)

/-- Witness for the amended C6 at the concrete run of the counterexample. -/
theorem batch_flush_size_or_idle_timeout_witness :
    ((8 : Nat), [0, 4, 8]).2 ≠ [] ∧ ∃ l, ((8 : Nat), [0, 4, 8]).2.getLast? = some l ∧
      (((8 : Nat), [0, 4, 8]).1 = l + 5 ∨
        (((8 : Nat), [0, 4, 8]).1 = l ∧ 3 ≤ ((8 : Nat), [0, 4, 8]).2.length)) :=
  batch_flush_size_or_idle_timeout 3 5 [0, 4, 8] 0 (8, [0, 4, 8]) (by decide)

/-! ### Claim theorems: cache manager -/

/-- Claim C4: a `set` followed by a `get` strictly within the TTL returns
exactly the payload that was stored (the same serialised bytes, hence an
identical payload after `json.loads`); a `get` at or after the entry's expiry
behaves identically to a miss — it returns nothing, leaves the store and
`hit_count` untouched, and increments `miss_count`, exactly as if the key had
never been set. -/
theorem cache_set_get_ttl (m : MCPCacheManager) (hash : String → String) (now : Nat)
    (tool_name : String) (parameters context : List (String × JVal)) (result : JVal)
    (ttl : Option Nat) (t : Nat) :
    (t < now + ttlOrDefault m.default_ttl ttl →
      (MCPCacheManager.get (m.set hash now tool_name parameters context result ttl)
          hash t tool_name parameters context) =
        (some (dumps result),
          { m.set hash now tool_name parameters context result ttl with
              hit_count := m.hit_count + 1 })) ∧
    (now + ttlOrDefault m.default_ttl ttl ≤ t →
      (MCPCacheManager.get (m.set hash now tool_name parameters context result ttl)
          hash t tool_name parameters context) =
        (none,
          { m.set hash now tool_name parameters context result ttl with
              miss_count := m.miss_count + 1 })) := by
  constructor
  · intro h
    simp [MCPCacheManager.get, MCPCacheManager.set, redisGet, List.lookup, h]
  · intro h
    simp [MCPCacheManager.get, MCPCacheManager.set, redisGet, List.lookup,
      Nat.not_lt.mpr h]

/-- Witness for C4: an entry stored at time 0 with the default TTL is
returned verbatim at time 10 and is gone (a miss) at time 3600. -/
theorem cache_set_get_ttl_witness :
    (MCPCacheManager.get ((⟨[], 3600, 0, 0⟩ : MCPCacheManager).set id 0 "search"
          [] [] JVal.jnull none) id 10 "search" [] []) =
      (some (dumps JVal.jnull),
        { (⟨[], 3600, 0, 0⟩ : MCPCacheManager).set id 0 "search" [] [] JVal.jnull none with
            hit_count := (⟨[], 3600, 0, 0⟩ : MCPCacheManager).hit_count + 1 }) ∧
    (MCPCacheManager.get ((⟨[], 3600, 0, 0⟩ : MCPCacheManager).set id 0 "search"
          [] [] JVal.jnull none) id 3600 "search" [] []) =
      (none,
        { (⟨[], 3600, 0, 0⟩ : MCPCacheManager).set id 0 "search" [] [] JVal.jnull none with
            miss_count := (⟨[], 3600, 0, 0⟩ : MCPCacheManager).miss_count + 1 }) :=
  ⟨(cache_set_get_ttl ⟨[], 3600, 0, 0⟩ id 0 "search" [] [] JVal.jnull none 10).1
      (by decide),
   (cache_set_get_ttl ⟨[], 3600, 0, 0⟩ id 0 "search" [] [] JVal.jnull none 3600).2
      (by decide)⟩

/-- Claim C10: `MCPCacheManager.set` with `ttl=None` and with `ttl=0` store
the entry identically, under the manager's `default_ttl` (Python's
`ttl or self.default_ttl` treats `0` as falsy); in particular `ttl=0` does
not create an immediately-expired entry nor disable caching — the entry is
immediately retrievable whenever `default_ttl > 0`. -/
theorem cache_set_zero_ttl_defaults (m : MCPCacheManager) (hash : String → String)
    (now : Nat) (tool_name : String) (parameters context : List (String × JVal))
    (result : JVal) :
    m.set hash now tool_name parameters context result none =
      m.set hash now tool_name parameters context result (some 0) ∧
    (m.set hash now tool_name parameters context result (some 0)).store =
      (genCacheKey hash tool_name parameters context, dumps result,
        now + m.default_ttl) :: m.store ∧
    (0 < m.default_ttl →
      (MCPCacheManager.get (m.set hash now tool_name parameters context result (some 0))
          hash now tool_name parameters context).1 = some (dumps result)) := by
  refine ⟨by simp [MCPCacheManager.set, ttlOrDefault], by simp [MCPCacheManager.set, ttlOrDefault], ?_⟩
  intro h
  simp [MCPCacheManager.get, MCPCacheManager.set, redisGet, List.lookup, ttlOrDefault, h]

/-- Witness for C10 at a concrete manager with the default TTL of 3600. -/
theorem cache_set_zero_ttl_defaults_witness :
    (⟨[], 3600, 0, 0⟩ : MCPCacheManager).set id 0 "search" [] [] JVal.jnull none =
      (⟨[], 3600, 0, 0⟩ : MCPCacheManager).set id 0 "search" [] [] JVal.jnull (some 0) ∧
    ((⟨[], 3600, 0, 0⟩ : MCPCacheManager).set id 0 "search" [] [] JVal.jnull (some 0)).store =
      (genCacheKey id "search" [] [], dumps JVal.jnull,
        0 + (⟨[], 3600, 0, 0⟩ : MCPCacheManager).default_ttl) :: [] ∧
    (MCPCacheManager.get ((⟨[], 3600, 0, 0⟩ : MCPCacheManager).set id 0 "search" [] []
        JVal.jnull (some 0)) id 0 "search" [] []).1 = some (dumps JVal.jnull) := by
  have h := cache_set_zero_ttl_defaults ⟨[], 3600, 0, 0⟩ id 0 "search" [] [] JVal.jnull
  exact ⟨h.1, h.2.1, h.2.2 (by decide)⟩

/-! ### Helper lemmas: sorted-key serialisation -/

theorem dumpsFields_eq_map (fs : List (String × JVal)) :
    dumpsFields fs = fs.map (fun kv => (kv.1, dumps kv.2)) := by
  induction fs with
  | nil => rfl
  | cons kv rest ih =>
    cases kv
    simp [dumpsFields, ih]

/-- Two lists of rendered fields that are permutations of each other with
pairwise-distinct keys sort to the same list: Python's key sort is a total
order, and distinct keys make the sorted arrangement unique. -/
theorem sortFields_eq_of_perm (l₁ l₂ : List (String × String))
    (hp : l₁.Perm l₂) (hnd : (l₁.map Prod.fst).Nodup) :
    sortFields l₁ = sortFields l₂ := by
  haveI : IsTotal (String × String) (fun a b => a.1.data ≤ b.1.data) :=
    ⟨fun a b => le_total a.1.data b.1.data⟩
  haveI : IsTrans (String × String) (fun a b => a.1.data ≤ b.1.data) :=
    ⟨fun a b c hab hbc => le_trans hab hbc⟩
  haveI : IsAntisymm (String × String) (fun a b : String × String => a.1.data < b.1.data) :=
    ⟨fun a b h1 h2 => absurd h2 (lt_asymm h1)⟩
  have hs₁ : List.Sorted (fun a b : String × String => a.1.data ≤ b.1.data) (sortFields l₁) :=
    List.sorted_insertionSort _ l₁
  have hs₂ : List.Sorted (fun a b : String × String => a.1.data ≤ b.1.data) (sortFields l₂) :=
    List.sorted_insertionSort _ l₂
  have hperm : (sortFields l₁).Perm (sortFields l₂) :=
    (List.perm_insertionSort _ l₁).trans (hp.trans (List.perm_insertionSort _ l₂).symm)
  have hnd₁ : ((sortFields l₁).map Prod.fst).Nodup :=
    (((List.perm_insertionSort _ l₁).map Prod.fst).nodup_iff).mpr hnd
  have hnd₂ : ((sortFields l₂).map Prod.fst).Nodup :=
    (((List.perm_insertionSort _ l₂).map Prod.fst).nodup_iff).mpr
      (((hp.map Prod.fst).nodup_iff).mp hnd)
  have hstrict₁ : List.Sorted (fun a b : String × String => a.1.data < b.1.data)
      (sortFields l₁) := by
    have hne : List.Pairwise (fun a b : String × String => a.1 ≠ b.1) (sortFields l₁) :=
      List.pairwise_map.mp hnd₁
    exact (hs₁.and hne).imp (fun h => lt_of_le_of_ne h.1 (fun hd => h.2 (String.ext hd)))
  have hstrict₂ : List.Sorted (fun a b : String × String => a.1.data < b.1.data)
      (sortFields l₂) := by
    have hne : List.Pairwise (fun a b : String × String => a.1 ≠ b.1) (sortFields l₂) :=
      List.pairwise_map.mp hnd₂
    exact (hs₂.and hne).imp (fun h => lt_of_le_of_ne h.1 (fun hd => h.2 (String.ext hd)))
  exact List.eq_of_perm_of_sorted hperm hstrict₁ hstrict₂

/-- `json.dumps(obj, sort_keys=True)` is insensitive to the insertion order of
a dict's fields when its keys are distinct (as Python dict keys always are). -/
theorem dumps_jobj_perm (fs₁ fs₂ : List (String × JVal))
    (hp : fs₁.Perm fs₂) (hnd : (fs₁.map Prod.fst).Nodup) :
    dumps (.jobj fs₁) = dumps (.jobj fs₂) := by
  have hdf : (dumpsFields fs₁).Perm (dumpsFields fs₂) := by
    rw [dumpsFields_eq_map, dumpsFields_eq_map]
    exact hp.map _
  have hkeys : ((dumpsFields fs₁).map Prod.fst).Nodup := by
    rw [dumpsFields_eq_map, List.map_map]
    have heq : (Prod.fst ∘ fun kv : String × JVal => (kv.1, dumps kv.2)) = Prod.fst := by
      funext kv
      rfl
    rw [heq]
    exact hnd
  rw [dumps, dumps]
  rw [sortFields_eq_of_perm _ _ hdf hkeys]

/-! ### Claim theorems: cache key generation -/

/-- Claim C8 (counterexample): `_generate_cache_key` hashes a serialisation of
the full `tool_name`, `parameters` and `context`; nothing is excluded, and no
capability declares result-determining or volatile fields anywhere in the
code.  Two calls whose contexts differ only in a volatile `timestamp` field
produce different serialisations (and hence, through SHA-256, different cache
keys), contradicting the claimed volatile-field exclusion. -/
theorem cache_key_volatile_not_excluded :
    cacheStr "search" [("query", JVal.jstr "q")] [("timestamp", JVal.jnum 1)] ≠
      cacheStr "search" [("query", JVal.jstr "q")] [("timestamp", JVal.jnum 2)] := by
  decide

/-- Claim C8 (amended): the cache key is derived from a normalized,
order-independent serialisation (`json.dumps` with `sort_keys=True`) of the
full parameters and context: two `Get`/`Set` calls whose parameters and
context differ only in key ordering produce the same cache key; but there is
no volatile-field exclusion — every field, volatile or not, enters the key. -/
theorem cache_key_order_independent (hash : String → String) (tool_name : String)
    (p₁ p₂ c₁ c₂ : List (String × JVal))
    (hpp : p₁.Perm p₂) (hcp : c₁.Perm c₂)
    (hpk : (p₁.map Prod.fst).Nodup) (hck : (c₁.map Prod.fst).Nodup) :
    genCacheKey hash tool_name p₁ c₁ = genCacheKey hash tool_name p₂ c₂ := by
  have hp : dumps (.jobj p₁) = dumps (.jobj p₂) := dumps_jobj_perm _ _ hpp hpk
  have hc : dumps (.jobj c₁) = dumps (.jobj c₂) := dumps_jobj_perm _ _ hcp hck
  have houter : ∀ X Y : JVal,
      dumps (.jobj [("tool", .jstr tool_name), ("params", X), ("context", Y)]) =
        "\x7b" ++ String.intercalate ", "
          ((sortFields [("tool", dumps (.jstr tool_name)), ("params", dumps X),
              ("context", dumps Y)]).map
            (fun kv => "\"" ++ jsonEscape kv.1 ++ "\": " ++ kv.2)) ++ "\x7d" := by
    intro X Y
    rw [dumps]
    rfl
  unfold genCacheKey cacheStr
  rw [houter, houter, hp, hc]

/-- Witness for the amended C8: swapping the order of two parameter fields
leaves the generated key unchanged. -/
theorem cache_key_order_independent_witness :
    genCacheKey id "t" [("a", JVal.jnum 1), ("b", JVal.jnum 2)] [] =
      genCacheKey id "t" [("b", JVal.jnum 2), ("a", JVal.jnum 1)] [] :=
  cache_key_order_independent id "t" _ _ _ _
    (List.Perm.swap ("b", JVal.jnum 2) ("a", JVal.jnum 1) [])
    (List.Perm.refl []) (by decide) (by decide)

/-! ### Helper lemmas: top-K routing -/

theorem list_sum_range_eq_finset (f : Nat → ℚ) (n : Nat) :
    ((List.range n).map f).sum = ∑ i ∈ Finset.range n, f i := by
  induction n with
  | zero => simp
  | succ n ih =>
    rw [List.range_succ, List.map_append, List.sum_append, Finset.sum_range_succ, ih]
    simp

theorem topKIndices_subset (scores : List ℚ) (k : Nat) :
    topKIndices scores k ⊆ List.range scores.length := fun i hi =>
  (List.perm_insertionSort _ (List.range scores.length)).subset
    ((List.take_sublist k _).subset hi)

theorem topKIndices_nodup (scores : List ℚ) (k : Nat) :
    (topKIndices scores k).Nodup :=
  List.Nodup.sublist (List.take_sublist k _)
    ((List.perm_insertionSort _ (List.range scores.length)).nodup_iff.mpr
      (List.nodup_range scores.length))

theorem topKIndices_length (scores : List ℚ) (k : Nat) (hkn : k ≤ scores.length) :
    (topKIndices scores k).length = k := by
  rw [topKIndices, List.length_take,
    (List.perm_insertionSort _ (List.range scores.length)).length_eq,
    List.length_range]
  exact Nat.min_eq_left hkn

/-! ### Claim theorems: expert gating router -/

/-- Claim C2: for every `Route` call with `0 < k < len(candidates)` and
strictly positive gating scores (softmax outputs always are), exactly `k`
experts receive non-zero weight, the selected weights sum exactly to 1 (the
rational model carries no floating-point error), and every non-selected
expert receives zero weight.  The router model is built from the spec, the
`moe_router.py` selection code being absent from the repository. -/
theorem route_sparsity (scores : List ℚ) (k : Nat)
    (hk : 0 < k) (hkn : k < scores.length) (hpos : ∀ s ∈ scores, 0 < s) :
    List.countP (fun w => decide (w ≠ 0)) (routeWeights scores k) = k ∧
    (routeWeights scores k).sum = 1 ∧
    (∀ i, i ∉ topKIndices scores k → expertWeight scores k i = 0) := by
  have hmemlt : ∀ i ∈ topKIndices scores k, i < scores.length := fun i hi =>
    List.mem_range.mp (topKIndices_subset scores k hi)
  have hposel : ∀ i ∈ topKIndices scores k, 0 < scores.getD i 0 := by
    intro i hi
    rw [List.getD_eq_getElem scores 0 (hmemlt i hi)]
    exact hpos _ (List.getElem_mem (hmemlt i hi))
  have hlen : (topKIndices scores k).length = k :=
    topKIndices_length scores k (le_of_lt hkn)
  have hnodup := topKIndices_nodup scores k
  have hnonempty : topKIndices scores k ≠ [] := by
    intro h
    rw [h] at hlen
    simp at hlen
    omega
  have hS : 0 < ((topKIndices scores k).map (fun j => scores.getD j 0)).sum := by
    apply List.sum_pos
    · intro x hx
      rcases List.mem_map.mp hx with ⟨j, hj, rfl⟩
      exact hposel j hj
    · simpa [List.map_eq_nil_iff] using hnonempty
  have hzero : ∀ i, i ∉ topKIndices scores k → expertWeight scores k i = 0 := by
    intro i hi
    simp [expertWeight, hi]
  have hval : ∀ i ∈ topKIndices scores k, expertWeight scores k i =
      scores.getD i 0 / ((topKIndices scores k).map (fun j => scores.getD j 0)).sum := by
    intro i hi
    simp [expertWeight, hi]
  have hsum : (routeWeights scores k).sum = 1 := by
    rw [routeWeights, list_sum_range_eq_finset]
    have h1 : ∑ i ∈ Finset.range scores.length, expertWeight scores k i =
        ∑ i ∈ (topKIndices scores k).toFinset, expertWeight scores k i := by
      refine (Finset.sum_subset ?_ ?_).symm
      · intro x hx
        exact Finset.mem_range.mpr (hmemlt x (List.mem_toFinset.mp hx))
      · intro x hx hnx
        exact hzero x (fun hmem => hnx (List.mem_toFinset.mpr hmem))
    rw [h1]
    have h2 : ∑ i ∈ (topKIndices scores k).toFinset, expertWeight scores k i =
        ∑ i ∈ (topKIndices scores k).toFinset,
          scores.getD i 0 / ((topKIndices scores k).map (fun j => scores.getD j 0)).sum := by
      refine Finset.sum_congr rfl ?_
      intro x hx
      exact hval x (List.mem_toFinset.mp hx)
    rw [h2, ← Finset.sum_div, List.sum_toFinset _ hnodup]
    exact div_self (ne_of_gt hS)
  have hcount : List.countP (fun w => decide (w ≠ 0)) (routeWeights scores k) = k := by
    rw [routeWeights, List.countP_map]
    have hcongr : List.countP ((fun w => decide (w ≠ 0)) ∘ expertWeight scores k)
        (List.range scores.length) =
        List.countP (fun i => decide (i ∈ topKIndices scores k))
          (List.range scores.length) := by
      apply List.countP_congr
      intro i hi
      simp only [Function.comp_apply, decide_eq_true_eq]
      by_cases hmem : i ∈ topKIndices scores k
      · simp only [hmem, iff_true]
        rw [hval i hmem]
        exact div_ne_zero (ne_of_gt (hposel i hmem)) (ne_of_gt hS)
      · simp only [hmem, iff_false, ne_eq, not_not]
        exact hzero i hmem
    rw [hcongr, List.countP_eq_length_filter]
    have hfp : ((List.range scores.length).filter
        (fun i => decide (i ∈ topKIndices scores k))).Perm (topKIndices scores k) := by
      apply (List.perm_ext_iff_of_nodup ((List.nodup_range scores.length).filter _)
        hnodup).mpr
      intro a
      simp only [List.mem_filter, List.mem_range, decide_eq_true_eq]
      exact ⟨fun h => h.2, fun h => ⟨hmemlt a h, h⟩⟩
    rw [hfp.length_eq]
    exact hlen
  exact ⟨hcount, hsum, hzero⟩

/-- Witness for C2 at three candidates with scores `[1, 2, 3]` and `k = 2`. -/
theorem route_sparsity_witness :
    List.countP (fun w => decide (w ≠ 0)) (routeWeights [1, 2, 3] 2) = 2 ∧
    (routeWeights [1, 2, 3] 2).sum = 1 ∧
    (∀ i, i ∉ topKIndices [1, 2, 3] 2 → expertWeight [1, 2, 3] 2 i = 0) :=
  route_sparsity [1, 2, 3] 2 (by decide) (by decide) (by decide)

/-! ### Claim theorems: gating network determinism -/

/-- Claim C9: with training (exploration) mode disabled, two runs of
`GatingNetwork.forward` on the same context embedding produce identical
expert weights whatever the dropout masks and noise draws are — the
`torch.randn_like` perturbation is added to the logits only under the
`self.training` guard, and dropout is the identity in evaluation mode. -/
theorem gating_forward_deterministic (net : GatingNetwork) (hq : net.training = false)
    (expQ : ℚ → ℚ) (context_embedding : List ℚ) (mask1 mask2 mask1' mask2' : List Bool)
    (noise noise' : List ℚ) :
    net.forward expQ context_embedding mask1 mask2 noise =
      net.forward expQ context_embedding mask1' mask2' noise' := by
  simp [GatingNetwork.forward, dropoutV, hq]

/-- Witness for C9 at a concrete evaluation-mode network with differing
masks and noise. -/
theorem gating_forward_deterministic_witness :
    ({ fc1 := id, bn1 := id, fc2 := id, bn2 := id, fc3 := id, dropout_p := 1/2,
          training := false } : GatingNetwork).forward id [1] [true] [true] [0] =
      ({ fc1 := id, bn1 := id, fc2 := id, bn2 := id, fc3 := id, dropout_p := 1/2,
          training := false } : GatingNetwork).forward id [1] [false] [false] [5] :=
  gating_forward_deterministic _ rfl id [1] [true] [true] [false] [false] [0] [5]
